import Mathlib

/-!
Verification development for the commitBlogger pipeline.

Shallow embedding, translated from the Python sources:
* `transform.py`  — `AsyncTokenRateLimiter` (token-bucket rate limiter),
  `Transformer._call_gemini_async` (generation client with tenacity retry),
  `Transformer._summarize_single_file_async` (diff summarizer),
  `Transformer.generate_click_worthy_title`.
* `ingest.py`     — `Ingester` processed-SHA ledger and `fetch_github_commits`.
* `main.py`       — `run_pipeline` per-commit orchestration loop.

Real time, the asyncio event loop and the external Gemini / WordPress /
GitHub services are modelled by explicit time parameters and oracle
functions; floats are modelled by rationals.
-/

namespace CommitBlogger

/-! ## Token-bucket rate limiter (`transform.py`, class `AsyncTokenRateLimiter`)

Python floats are modelled as `ℚ`; `time.monotonic()` readings are explicit
`now : ℚ` arguments.  `asyncio.sleep(wait_time)` suspends for at least
`wait_time`; the `extra ≥ 0` argument of `consume` models any additional
delay between the end of the sleep and the second `_refill` sample. -/

structure AsyncTokenRateLimiter where
  capacity : ℚ
  tokens : ℚ
  refill_rate_per_second : ℚ
  last_refill_time : ℚ
  rpm_delay : ℚ
  deriving Repr, DecidableEq

/-- Constructor `AsyncTokenRateLimiter.__init__` (transform.py:21-27):
capacity and the bucket start equal, the per-second refill rate is the
per-minute rate divided by 60, and the RPM delay is `60 / rpm_limit`
when `rpm_limit > 0` else `0`.  `t0` is the `time.monotonic()` reading
taken at construction. -/
def initLimiter (capacity refill_rate_per_minute rpm_limit : ℕ) (t0 : ℚ) :
    AsyncTokenRateLimiter :=
  { capacity := capacity
  , tokens := capacity
  , refill_rate_per_second := (refill_rate_per_minute : ℚ) / 60
  , last_refill_time := t0
  , rpm_delay := if rpm_limit > 0 then 60 / (rpm_limit : ℚ) else 0 }

/-- `AsyncTokenRateLimiter._refill` (transform.py:29-34):
`tokens = min(capacity, tokens + elapsed * refill_rate_per_second)` where
`elapsed = now - last_refill_time`, then `last_refill_time = now`. -/
def refill (rl : AsyncTokenRateLimiter) (now : ℚ) : AsyncTokenRateLimiter :=
  { rl with
    tokens := min rl.capacity
      (rl.tokens + (now - rl.last_refill_time) * rl.refill_rate_per_second)
  , last_refill_time := now }

/-- `AsyncTokenRateLimiter.consume` (transform.py:36-54).  Returns the new
limiter state together with the duration passed to `asyncio.sleep`
(0 when no sleep happens).  The `tokens_to_consume > capacity` case only
logs a warning (transform.py:42-43) and has no effect on the state, so it
does not appear here.  `units : ℕ` because the argument is the (nonnegative)
`count_tokens` total.  The body runs under `self._lock`, so one call is
atomic; sequential composition of `consume` calls models any interleaving. -/
def consume (rl : AsyncTokenRateLimiter) (units : ℕ) (now extra : ℚ) :
    AsyncTokenRateLimiter × ℚ :=
  let r1 := refill rl now
  if r1.tokens < (units : ℚ) then
    let wait := ((units : ℚ) - r1.tokens) / rl.refill_rate_per_second
    let r2 := refill r1 (now + wait + extra)
    ({ r2 with tokens := r2.tokens - (units : ℚ) }, wait)
  else
    ({ r1 with tokens := r1.tokens - (units : ℚ) }, 0)

/-- One `consume` call of a sequential trace: `elapsed ≥ 0` is the time
between the previous refill sample and this call's `time.monotonic()`
reading (monotonic clock), `extra ≥ 0` the scheduler lateness of the
sleep. -/
structure ConsumeCall where
  units : ℕ
  elapsed : ℚ
  extra : ℚ
  deriving Repr

def consumeStep (rl : AsyncTokenRateLimiter) (c : ConsumeCall) :
    AsyncTokenRateLimiter :=
  (consume rl c.units (rl.last_refill_time + c.elapsed) c.extra).1

/-- A sequence of `consume` calls on one limiter. -/
def consumeSeq (rl : AsyncTokenRateLimiter) (calls : List ConsumeCall) :
    AsyncTokenRateLimiter :=
  calls.foldl consumeStep rl

lemma consume_capacity (rl : AsyncTokenRateLimiter) (units : ℕ) (now extra : ℚ) :
    (consume rl units now extra).1.capacity = rl.capacity := by
  simp only [consume, refill]
  split <;> rfl

lemma consume_rate (rl : AsyncTokenRateLimiter) (units : ℕ) (now extra : ℚ) :
    (consume rl units now extra).1.refill_rate_per_second
      = rl.refill_rate_per_second := by
  simp only [consume, refill]
  split <;> rfl

/-- One `consume` call keeps `0 ≤ tokens ≤ capacity`, provided the requested
units do not exceed the capacity, the clock is monotone and the sleep lasts
at least the requested duration. -/
lemma consume_inv (rl : AsyncTokenRateLimiter) (units : ℕ) (now extra : ℚ)
    (h0 : 0 ≤ rl.tokens) (h1 : rl.tokens ≤ rl.capacity)
    (hrate : 0 < rl.refill_rate_per_second)
    (hnow : rl.last_refill_time ≤ now) (hextra : 0 ≤ extra)
    (hunits : (units : ℚ) ≤ rl.capacity) :
    0 ≤ (consume rl units now extra).1.tokens ∧
      (consume rl units now extra).1.tokens ≤ rl.capacity := by
  have hcap : (0 : ℚ) ≤ rl.capacity := le_trans h0 h1
  have hu0 : (0 : ℚ) ≤ (units : ℚ) := Nat.cast_nonneg units
  simp only [consume, refill]
  set r1t := min rl.capacity
    (rl.tokens + (now - rl.last_refill_time) * rl.refill_rate_per_second) with hr1
  have hr1nonneg : 0 ≤ r1t := by
    refine le_min hcap ?_
    have : 0 ≤ (now - rl.last_refill_time) * rl.refill_rate_per_second :=
      mul_nonneg (by linarith) hrate.le
    linarith
  have hr1le : r1t ≤ rl.capacity := min_le_left _ _
  split_ifs with hdef
  · -- deficit branch: sleep, second refill, debit
    set w := ((units : ℚ) - r1t) / rl.refill_rate_per_second with hw
    have hwr : w * rl.refill_rate_per_second = (units : ℚ) - r1t :=
      div_mul_cancel₀ _ (ne_of_gt hrate)
    have hX : (units : ℚ)
        ≤ r1t + (now + w + extra - now) * rl.refill_rate_per_second := by
      have hexp : (now + w + extra - now) * rl.refill_rate_per_second
          = w * rl.refill_rate_per_second + extra * rl.refill_rate_per_second := by
        ring
      have hex : 0 ≤ extra * rl.refill_rate_per_second :=
        mul_nonneg hextra hrate.le
      rw [hexp, hwr]; linarith
    have hA : min rl.capacity
        (r1t + (now + w + extra - now) * rl.refill_rate_per_second)
        ≤ rl.capacity := min_le_left _ _
    have hB : (units : ℚ) ≤ min rl.capacity
        (r1t + (now + w + extra - now) * rl.refill_rate_per_second) :=
      le_min hunits hX
    constructor <;> simp only [] <;> linarith
  · -- sufficient tokens: immediate debit
    have hge : (units : ℚ) ≤ r1t := not_lt.mp hdef
    constructor <;> simp only [] <;> linarith

lemma consumeStep_capacity (rl : AsyncTokenRateLimiter) (c : ConsumeCall) :
    (consumeStep rl c).capacity = rl.capacity :=
  consume_capacity ..

lemma consumeStep_rate (rl : AsyncTokenRateLimiter) (c : ConsumeCall) :
    (consumeStep rl c).refill_rate_per_second = rl.refill_rate_per_second :=
  consume_rate ..

/-- C1 (amended): for every sequence of `consume` calls on a limiter with
positive refill rate, starting from a state satisfying the invariant, the
token count satisfies `0 ≤ tokens ≤ capacity` at every observation point
(after every prefix of the call sequence) — provided no call requests more
units than the capacity.  The unamended claim also covers calls with
`units > capacity`; those leave `tokens` negative, see the counterexample. -/
theorem consume_seq_invariant (rl : AsyncTokenRateLimiter)
    (calls : List ConsumeCall)
    (h0 : 0 ≤ rl.tokens) (h1 : rl.tokens ≤ rl.capacity)
    (hrate : 0 < rl.refill_rate_per_second)
    (hcalls : ∀ c ∈ calls,
      (c.units : ℚ) ≤ rl.capacity ∧ 0 ≤ c.elapsed ∧ 0 ≤ c.extra) :
    ∀ n, 0 ≤ (consumeSeq rl (calls.take n)).tokens ∧
      (consumeSeq rl (calls.take n)).tokens ≤ rl.capacity := by
  induction calls generalizing rl with
  | nil =>
    intro n
    simpa [consumeSeq] using ⟨h0, h1⟩
  | cons c cs ih =>
    intro n
    cases n with
    | zero => simpa [consumeSeq] using ⟨h0, h1⟩
    | succ m =>
      have hc := hcalls c (List.mem_cons_self c cs)
      have hstep := consume_inv rl c.units (rl.last_refill_time + c.elapsed)
        c.extra h0 h1 hrate (by linarith [hc.2.1]) hc.2.2 hc.1
      have hcap := consumeStep_capacity rl c
      have hrt := consumeStep_rate rl c
      have hrest : ∀ d ∈ cs,
          (d.units : ℚ) ≤ (consumeStep rl c).capacity ∧
            0 ≤ d.elapsed ∧ 0 ≤ d.extra := by
        intro d hd
        rw [hcap]
        exact hcalls d (List.mem_cons_of_mem c hd)
      have := ih (consumeStep rl c) hstep.1 (by rw [hcap]; exact hstep.2)
        (by rw [hrt]; exact hrate) hrest m
      rw [hcap] at this
      simpa [consumeSeq, List.take_succ_cons] using this

/-- The claim as frozen is false at a call requesting more units than the
capacity: with capacity 1, refill 60 per minute (1 per second) and RPM 60,
one `consume(2)` call completes with `tokens = -1 < 0`.  The code only logs
a warning for this case (transform.py:42-43) and proceeds. -/
theorem consume_seq_negative_counterexample :
    (consumeSeq (initLimiter 1 60 60 0) [⟨2, 0, 0⟩]).tokens < 0 := by
  norm_num [consumeSeq, consumeStep, consume, refill, initLimiter]

/-- Witness for `consume_seq_invariant`: limiter with capacity 10 and
refill 600 per minute, two `consume(4)` calls; the invariant holds after
both. -/
theorem consume_seq_invariant_witness :
    0 ≤ (consumeSeq (initLimiter 10 600 60 0)
          (List.take 2 [⟨4, 0, 0⟩, ⟨4, 0, 0⟩])).tokens ∧
      (consumeSeq (initLimiter 10 600 60 0)
          (List.take 2 [⟨4, 0, 0⟩, ⟨4, 0, 0⟩])).tokens
        ≤ (initLimiter 10 600 60 0).capacity := by
  refine consume_seq_invariant (initLimiter 10 600 60 0)
    [⟨4, 0, 0⟩, ⟨4, 0, 0⟩] ?_ ?_ ?_ ?_ 2
  · norm_num [initLimiter]
  · norm_num [initLimiter]
  · norm_num [initLimiter]
  · intro c hc
    simp only [List.mem_cons, List.not_mem_nil, or_false] at hc
    rcases hc with rfl | rfl <;> norm_num [initLimiter]

/-- C2: `consume` first refills the bucket to
`min(capacity, tokens + elapsed * refill_rate_per_second)`; when the request
exceeds the refilled level it sleeps exactly the deficit divided by the
refill rate (the minimum sufficient time, not a fixed poll interval),
refills again at the later clock reading, and debits by `units`; otherwise
it sleeps 0 and debits immediately. -/
theorem consume_refill_wait_debit (rl : AsyncTokenRateLimiter) (units : ℕ)
    (now extra : ℚ) (hrate : 0 < rl.refill_rate_per_second) :
    (refill rl now).tokens
        = min rl.capacity
            (rl.tokens + (now - rl.last_refill_time) * rl.refill_rate_per_second)
      ∧ ((refill rl now).tokens < (units : ℚ) →
          (consume rl units now extra).2
              = ((units : ℚ) - (refill rl now).tokens)
                  / rl.refill_rate_per_second
            ∧ (consume rl units now extra).1.tokens
                = (refill (refill rl now)
                    (now + (consume rl units now extra).2 + extra)).tokens
                    - (units : ℚ))
      ∧ ((units : ℚ) ≤ (refill rl now).tokens →
          (consume rl units now extra).2 = 0
            ∧ (consume rl units now extra).1.tokens
                = (refill rl now).tokens - (units : ℚ)) := by
  refine ⟨rfl, fun h => ?_, fun h => ?_⟩
  · simp only [consume]
    rw [if_pos h]
    exact ⟨rfl, rfl⟩
  · simp only [consume]
    rw [if_neg (not_lt.mpr h)]
    exact ⟨rfl, rfl⟩

/-- Witness for `consume_refill_wait_debit`: capacity 10, refill 600 per
minute (10 per second); a request of 20 units finds 10 after refill and
sleeps (20 - 10) / 10 = 1 second. -/
theorem consume_refill_wait_debit_witness :
    (0 : ℚ) < (initLimiter 10 600 60 0).refill_rate_per_second ∧
      (refill (initLimiter 10 600 60 0) 0).tokens < (20 : ℚ) ∧
      (consume (initLimiter 10 600 60 0) 20 0 0).2 = 1 := by
  have hrate : (0 : ℚ) < (initLimiter 10 600 60 0).refill_rate_per_second := by
    norm_num [initLimiter]
  have h := consume_refill_wait_debit (initLimiter 10 600 60 0) 20 0 0 hrate
  have hlt : (refill (initLimiter 10 600 60 0) 0).tokens < (20 : ℚ) := by
    norm_num [refill, initLimiter]
  refine ⟨hrate, hlt, ?_⟩
  rw [(h.2.1 hlt).1]
  norm_num [refill, initLimiter]

/-! ## Generation client (`transform.py`, `Transformer._call_gemini_async`)

The external service's behaviour on one attempt is an `ApiOutcome`.
`_call_gemini_async` is decorated with
`@retry(..., stop=stop_after_attempt(3),
        retry=retry_if_exception_type(genai.types.BlockedPromptException))`
(transform.py:99-103); tenacity retries only when a
`BlockedPromptException` escapes the function body. -/

inductive ApiOutcome
  | ok (text : String)
  | blockedPromptExc
  | valueErr
  | otherExc
  deriving Repr, DecidableEq

inductive ExcKind
  | blockedPrompt
  | other
  deriving Repr, DecidableEq

/-- Body of `_call_gemini_async` (transform.py:105-140), as seen by the
tenacity decorator: `Except.error` would mean an exception escapes the body.
Per the source no exception ever escapes: `generate_content_async` runs
inside `try:`; `except ValueError` (transform.py:132-137) and the catch-all
`except Exception` (transform.py:138-140) both `return ""`, and
`BlockedPromptException` is an `Exception` subclass so it is swallowed by
one of these two clauses.  The token-counting/rate-limiting block has its
own catch-all (transform.py:115-124). -/
def call_gemini_async (o : ApiOutcome) : Except ExcKind String :=
  match o with
  | .ok t => Except.ok t
  | .blockedPromptExc => Except.ok ""
  | .valueErr => Except.ok ""
  | .otherExc => Except.ok ""

/-- Tenacity `@retry` combinator: run the body on successive attempt
outcomes; when the body raises a `BlockedPromptException` and attempts
remain, back off and retry, otherwise re-raise; a normal return is final.
Also returns the number of attempts made. -/
def tenacityCall (body : ApiOutcome → Except ExcKind String) :
    List ApiOutcome → Nat → Except ExcKind String × Nat
  | [], _ => (Except.error ExcKind.other, 0)
  | _ :: _, 0 => (Except.error ExcKind.other, 0)
  | o :: rest, n + 1 =>
      match body o with
      | Except.ok t => (Except.ok t, 1)
      | Except.error e =>
          if e = ExcKind.blockedPrompt ∧ 0 < n then
            let r := tenacityCall body rest n
            (r.1, r.2 + 1)
          else (Except.error e, 1)

/-- C8 (code evaluated at the failing input): a service that blocks the
prompt on every attempt makes the decorated call return empty text after a
single attempt — the retry configured for `BlockedPromptException` never
fires, because the body swallows every exception before tenacity can see
it.  Every failure kind indeed returns empty text without propagating, but
the blocked case is not retried, contradicting the claim's (and the
decorator's) three-attempt exponential backoff. -/
theorem blocked_prompt_never_retried :
    tenacityCall call_gemini_async
        [ApiOutcome.blockedPromptExc, ApiOutcome.blockedPromptExc,
          ApiOutcome.blockedPromptExc] 3
      = (Except.ok "", 1)
  ∧ tenacityCall call_gemini_async [ApiOutcome.valueErr] 3 = (Except.ok "", 1)
  ∧ tenacityCall call_gemini_async [ApiOutcome.otherExc] 3 = (Except.ok "", 1)
  ∧ ∀ o, ∃ t, call_gemini_async o = Except.ok t := by
  refine ⟨rfl, rfl, rfl, fun o => ?_⟩
  cases o <;> exact ⟨_, rfl⟩

/-! ## Python string primitives

Structurally recursive models of the Python `str` operations the pipeline
uses (`split("\n")`, `startswith`, `strip`, `lower`, substring test),
working on `String.data` so that concrete evaluations reduce in the
kernel. -/

/-- Python `str.split(sep)` for a one-character separator: splits at every
occurrence, keeping empty pieces; `"".split(sep) == [""]`. -/
def pySplit (sep : Char) : List Char → List (List Char)
  | [] => [[]]
  | c :: cs =>
      if c = sep then [] :: pySplit sep cs
      else
        match pySplit sep cs with
        | [] => [[c]]
        | l :: ls => (c :: l) :: ls

/-- Python `s.split("\n")` on a `String`. -/
def splitNl (s : String) : List String :=
  (pySplit (Char.ofNat 10) s.data).map String.mk

def pyStartsWithChars : List Char → List Char → Bool
  | [], _ => true
  | _ :: _, [] => false
  | p :: ps, c :: cs => p == c && pyStartsWithChars ps cs

/-- Python `s.startswith(p)`. -/
def pyStartsWith (s p : String) : Bool :=
  pyStartsWithChars p.data s.data

/-- Python `str.isspace` members relevant to `strip()`. -/
def pyIsSpace (c : Char) : Bool :=
  c == ' ' || c == '\t' || c == '\n' || c == '\r' || c == '\x0b' || c == '\x0c'

/-- Python `s.strip()`: drop leading and trailing whitespace. -/
def pyStrip (s : String) : String :=
  String.mk (((s.data.dropWhile pyIsSpace).reverse.dropWhile pyIsSpace).reverse)

/-- Python `s.lower()` (ASCII case folding, which covers the pipeline's
use on commit subjects). -/
def pyLower (s : String) : String :=
  String.mk (s.data.map Char.toLower)

def pyContainsAux (needle : List Char) : List Char → Bool
  | [] => needle.isEmpty
  | c :: cs => pyStartsWithChars needle (c :: cs) || pyContainsAux needle cs

/-- Python `needle in s`. -/
def pyContains (s needle : String) : Bool :=
  pyContainsAux needle.data s.data

example : splitNl "a\n\nb" = ["a", "", "b"] := by decide
example : pyStrip "  a b\t" = "a b" := by decide
example : pyContains (pyLower "WIP: tmp Ignore") "ignore" = true := by decide
example : pyContains "reign or else" "ignore" = false := by decide

/-! ## Diff summarizer (`transform.py`,
`Transformer._summarize_single_file_async`) -/

/-- A changed-file record, as assembled by `Ingester.fetch_github_commits`
(ingest.py:138-147).  A missing patch (`file.get("patch", "")`, or a `None`
patch field) is the empty string. -/
structure FileRec where
  filename : String
  status : String
  patch : String
  deriving Repr, DecidableEq

/-- `Transformer._summarize_single_file_async` (transform.py:143-161).
Returns the digest entry together with the number of external generation
calls made (the `_call_gemini_async('summary', ...)` delegation for large
patches).  `summaryOracle` stands for that external call's result. -/
def summarize_single_file_async (summaryOracle : FileRec → String)
    (f : FileRec) : String × Nat :=
  if f.patch = "" then
    ("File: " ++ f.filename ++ " (" ++ f.status
      ++ ") - No patch content available.", 0)
  else if f.patch.length > 1000 then
    ("File: " ++ f.filename ++ " (" ++ f.status ++ ")\nSummary: "
      ++ summaryOracle f, 1)
  else
    let lines := splitNl f.patch
    let relevant_lines := lines.filter (fun l =>
      (pyStartsWith l "+" || pyStartsWith l "-")
        && !(pyStartsWith l "+++" || pyStartsWith l "---"))
    let summary := String.intercalate "\n" (relevant_lines.take 10)
        ++ (if relevant_lines.length > 10 then "..." else "")
    ("File: " ++ f.filename ++ " (" ++ f.status ++ ")\n" ++ summary, 0)

/-- Claim C9's wording of the small-patch digest, for comparison: it says
the summarizer extracts added/removed/context lines (context lines of a
unified diff start with a space), excluding only the `+++`/`---` header
markers. -/
def summarizeSingleFileClaim (f : FileRec) : String :=
  let lines := splitNl f.patch
  let relevant_lines := lines.filter (fun l =>
    (pyStartsWith l "+" || pyStartsWith l "-" || pyStartsWith l " ")
      && !(pyStartsWith l "+++" || pyStartsWith l "---"))
  let summary := String.intercalate "\n" (relevant_lines.take 10)
      ++ (if relevant_lines.length > 10 then "..." else "")
  "File: " ++ f.filename ++ " (" ++ f.status ++ ")\n" ++ summary

/-- The claim as frozen is false: on the small patch "+a\n b" the code keeps
only the added line `+a` and drops the context line ` b`, so the digest
differs from the claim's added/removed/context extraction. -/
theorem summarize_drops_context_counterexample :
    (summarize_single_file_async (fun _ => "") ⟨"F", "M", "+a\n b"⟩).1
        = "File: F (M)\n+a"
  ∧ summarizeSingleFileClaim ⟨"F", "M", "+a\n b"⟩ = "File: F (M)\n+a\n b"
  ∧ (summarize_single_file_async (fun _ => "") ⟨"F", "M", "+a\n b"⟩).1
        ≠ summarizeSingleFileClaim ⟨"F", "M", "+a\n b"⟩ := by
  refine ⟨?_, ?_, ?_⟩ <;> decide

/-- C9 (amended): for a changed-file record with a non-empty patch of at
most 1000 characters, the summarizer makes no external call and builds the
digest purely locally from the added (`+`) and removed (`-`) lines only —
context lines are dropped — excluding the `+++`/`---` file-header markers,
truncated to 10 lines with an `...` marker appended exactly when more than
10 such lines exist. -/
theorem summarize_small_patch_local (summaryOracle : FileRec → String)
    (f : FileRec) (hne : f.patch ≠ "") (hsize : ¬ f.patch.length > 1000) :
    (summarize_single_file_async summaryOracle f).2 = 0
  ∧ (summarize_single_file_async summaryOracle f).1
      = "File: " ++ f.filename ++ " (" ++ f.status ++ ")\n"
        ++ String.intercalate "\n"
            (((splitNl f.patch).filter (fun l =>
              (pyStartsWith l "+" || pyStartsWith l "-")
                && !(pyStartsWith l "+++" || pyStartsWith l "---"))).take 10)
        ++ (if ((splitNl f.patch).filter (fun l =>
              (pyStartsWith l "+" || pyStartsWith l "-")
                && !(pyStartsWith l "+++" || pyStartsWith l "---"))).length > 10
            then "..." else "") := by
  simp only [summarize_single_file_async, if_neg hne, if_neg hsize]
  refine ⟨trivial, ?_⟩
  simp only [String.append_assoc]

/-- Witness for `summarize_small_patch_local`: a three-line patch with a
header marker line. -/
theorem summarize_small_patch_local_witness :
    (summarize_single_file_async (fun _ => "")
        ⟨"a.py", "modified", "+x\n---\n-y"⟩).2 = 0
  ∧ (summarize_single_file_async (fun _ => "")
        ⟨"a.py", "modified", "+x\n---\n-y"⟩).1
      = "File: a.py (modified)\n+x\n-y" := by
  have h := summarize_small_patch_local (fun _ => "")
    ⟨"a.py", "modified", "+x\n---\n-y"⟩ (by decide) (by decide)
  exact ⟨h.1, by rw [h.2]; decide⟩

/-! ## Title generation (`transform.py`,
`Transformer.generate_click_worthy_title`) -/

/-- The list comprehension
`[t.strip() for t in response_text.split("\n") if t.strip()]`
(transform.py:275). -/
def strippedTitles (lines : List String) : List String :=
  lines.filterMap (fun t => if pyStrip t = "" then none else some (pyStrip t))

/-- Pure part of `Transformer.generate_click_worthy_title`
(transform.py:256-276) as a function of the generation response text:
`titles[0] if titles else "Default Blog Post Title"`. -/
def generate_click_worthy_title (response_text : String) : String :=
  (strippedTitles (splitNl response_text)).headD "Default Blog Post Title"

lemma strippedTitles_nil_of_blank : ∀ (ls : List String),
    (∀ l ∈ ls, pyStrip l = "") → strippedTitles ls = []
  | [], _ => rfl
  | a :: t, h => by
    have ha := h a (List.mem_cons_self a t)
    have ht := fun l hl => h l (List.mem_cons_of_mem a hl)
    have hstep : strippedTitles (a :: t) = strippedTitles t := by
      simp [strippedTitles, List.filterMap_cons, ha]
    rw [hstep, strippedTitles_nil_of_blank t ht]

lemma strippedTitles_first (l : String) (post : List String)
    (hl : pyStrip l ≠ "") : ∀ (pre : List String),
    (∀ p ∈ pre, pyStrip p = "") →
    strippedTitles (pre ++ l :: post) = pyStrip l :: strippedTitles post
  | [], _ => by simp [strippedTitles, List.filterMap_cons, hl]
  | a :: t, h => by
    have ha := h a (List.mem_cons_self a t)
    have ht := fun p hp => h p (List.mem_cons_of_mem a hp)
    have hrec := strippedTitles_first l post hl t ht
    simpa [strippedTitles, List.filterMap_cons, ha] using hrec

lemma strippedTitles_ne_empty (ls : List String) :
    ∀ x ∈ strippedTitles ls, x ≠ "" := by
  intro x hx
  simp only [strippedTitles, List.mem_filterMap] at hx
  obtain ⟨a, _, hfa⟩ := hx
  by_cases h : pyStrip a = ""
  · simp [h] at hfa
  · simp only [if_neg h, Option.some.injEq] at hfa
    rw [← hfa]
    exact h

/-- C10: `generate_click_worthy_title` always returns a non-empty string:
the first whitespace-stripped non-blank line of the generation response
when one exists, and the fixed fallback "Default Blog Post Title" when
every line of the response is blank (in particular when the underlying
call degraded to empty text). -/
theorem generate_click_worthy_title_spec (r : String) :
    generate_click_worthy_title r ≠ ""
  ∧ ((∀ l ∈ splitNl r, pyStrip l = "") →
      generate_click_worthy_title r = "Default Blog Post Title")
  ∧ (∀ pre l post, splitNl r = pre ++ l :: post →
      (∀ p ∈ pre, pyStrip p = "") → pyStrip l ≠ "" →
      generate_click_worthy_title r = pyStrip l) := by
  refine ⟨?_, ?_, ?_⟩
  · unfold generate_click_worthy_title
    cases h : strippedTitles (splitNl r) with
    | nil => decide
    | cons a t =>
      exact strippedTitles_ne_empty _ a (h ▸ List.mem_cons_self a t)
  · intro hall
    unfold generate_click_worthy_title
    rw [strippedTitles_nil_of_blank _ hall]
    rfl
  · intro pre l post hsplit hpre hl
    unfold generate_click_worthy_title
    rw [hsplit, strippedTitles_first l post hl pre hpre]
    rfl

/-- Witness for `generate_click_worthy_title_spec`: a response whose first
line is blank and whose second line is non-blank yields that second line,
stripped. -/
theorem generate_click_worthy_title_spec_witness :
    generate_click_worthy_title "\n Alpha Beta \nGamma" = "Alpha Beta"
  ∧ generate_click_worthy_title "\n Alpha Beta \nGamma" ≠ ""
  ∧ generate_click_worthy_title "" = "Default Blog Post Title" := by
  have h := generate_click_worthy_title_spec "\n Alpha Beta \nGamma"
  have h0 := generate_click_worthy_title_spec ""
  refine ⟨?_, h.1, h0.2.1 (by decide)⟩
  have hfirst := h.2.2 [""] " Alpha Beta " ["Gamma"]
    (by decide) (by decide) (by decide)
  rw [hfirst]
  decide

/-! ## Pipeline orchestrator (`main.py`, `run_pipeline`) and processed
ledger (`ingest.py`, `Ingester`)

The external collaborators (Gemini via the Transformer, the WordPress
publisher, the Notion note map) are oracle functions.  File-system state
(the `generated_blogs` cache directory, the `processed_state.json` ledger,
the `linkedin_summaries` directory) is carried explicitly. -/

structure CommitData where
  sha : String
  message : String
  files : List FileRec
  deriving Repr, DecidableEq

structure NotionNote where
  title : String
  content : String
  deriving Repr, DecidableEq

/-- External collaborators of the per-commit loop.  `genBlog` takes the
commit, the matched Notion content and the current aggregated context
(`transformer.generate_blog_post`, main.py:282-287); an empty string is
the degraded result of a failed generation.  `publish` models
`publisher.publish_post` (main.py:307-312), returning the post id or
`none` on failure (publisher.py returns `None` then). -/
structure Oracle where
  genFileSummary : FileRec → String
  genBlog : CommitData → String → String → String
  genTitle : CommitData → String → String
  genLinkedin : CommitData → String → String
  publish : String → String → Option String

/-- State touched by `run_pipeline`:
`ledger` is `Ingester.processed_shas` (insertion order kept),
`ledgerSaves` counts `_save_processed_shas` disk writes,
`cache` is the `generated_blogs/blog_<short>.md` files (newest first),
`linkedinFiles` the `linkedin_summaries` files written,
`context` the run-scoped `aggregated_context` string,
`genCalls` the number of `_call_gemini_async` invocations (each of which
performs exactly one rate-limiter `consume`, transform.py:113-121),
`publishCalls` the number of `publisher.publish_post` calls. -/
structure PipeState where
  ledger : List String
  ledgerSaves : Nat
  cache : List (String × String)
  linkedinFiles : List String
  context : String
  genCalls : Nat
  publishCalls : Nat
  postsPublished : Bool
  deriving Repr, DecidableEq

inductive EventStatus
  | skippedIgnored
  | cacheHit
  | genFailed
  | publishFailed
  | published
  deriving Repr, DecidableEq

structure TraceEntry where
  status : EventStatus
  short : String
  content : String
  deriving Repr, DecidableEq

/-- `commit_data['sha'][:7]` (main.py:251). -/
def shortSha (sha : String) : String :=
  String.mk (sha.data.take 7)

/-- `commit_data['message'].splitlines()[0]` (main.py:252).  Total model:
on the empty message Python raises `IndexError` (uncaught, aborting the
run); theorems about the loop therefore assume non-empty messages. -/
def subjectOf (m : String) : String :=
  (splitNl m).headD ""

/-- `"ignore" in commit_message_subject.lower()` (main.py:256). -/
def hasIgnoreMarker (m : String) : Bool :=
  pyContains (pyLower (subjectOf m)) "ignore"

/-- The string appended to `aggregated_context` on a cache hit
(main.py:266) and on publish success (main.py:324). -/
def contextEntry (short content : String) : String :=
  "\n\n--- Blog Post for Commit " ++ short ++ " ---\n" ++ content

/-- External generation calls made by `_summarize_diff_async` for one
commit's file list (transform.py:163-173). -/
def summarizerCalls (o : Oracle) (e : CommitData) : Nat :=
  (e.files.map (fun f => (summarize_single_file_async o.genFileSummary f).2)).sum

/-- One iteration of the `for commit_data in commits_to_process` loop
(main.py:250-343).  Returns the new state and a trace entry recording the
per-event outcome and its primary content.

On publish success the code caches the post (main.py:319-321), appends to
`aggregated_context` (main.py:324) and then calls
`ingester.mark_as_processed(commit_data['sha'])` (main.py:327) — a method
`Ingester` does not define, so an `AttributeError` is raised there, caught
by `except Exception` (main.py:342-343).  Consequently the ledger is not
touched inside the loop and the LinkedIn-summary file write
(main.py:330-338) is skipped. -/
def processCommitT (o : Oracle) (notes : String → Option NotionNote)
    (st : PipeState) (e : CommitData) : PipeState × TraceEntry :=
  let short := shortSha e.sha
  if hasIgnoreMarker e.message then
    (st, ⟨EventStatus.skippedIgnored, short, ""⟩)
  else
    match st.cache.lookup short with
    | some content =>
        ({ st with context := st.context ++ contextEntry short content },
          ⟨EventStatus.cacheHit, short, content⟩)
    | none =>
        let notion_content :=
          match notes short with
          | some n => n.content
          | none => ""
        let blog := o.genBlog e notion_content st.context
        let st1 := { st with
          genCalls := st.genCalls + (summarizerCalls o e + 1) }
        if blog = "" then
          (st1, ⟨EventStatus.genFailed, short, ""⟩)
        else
          let title := o.genTitle e blog
          let _linkedin := o.genLinkedin e notion_content
          let st2 := { st1 with
            genCalls := st1.genCalls + 1 + (summarizerCalls o e + 1) }
          match o.publish title blog with
          | none =>
              ({ st2 with publishCalls := st2.publishCalls + 1 },
                ⟨EventStatus.publishFailed, short, ""⟩)
          | some _postId =>
              ({ st2 with
                  publishCalls := st2.publishCalls + 1,
                  postsPublished := true,
                  cache := (short, blog) :: st2.cache,
                  context := st2.context ++ contextEntry short blog },
                ⟨EventStatus.published, short, blog⟩)

/-- The whole per-commit loop, with its trace. -/
def runLoopT (o : Oracle) (notes : String → Option NotionNote) :
    PipeState → List CommitData → PipeState × List TraceEntry
  | st, [] => (st, [])
  | st, e :: rest =>
      let r := processCommitT o notes st e
      let rr := runLoopT o notes r.1 rest
      (rr.1, r.2 :: rr.2)

/-- `Ingester.fetch_github_commits` (ingest.py:103-173), happy path: in
incremental mode (`batch_mode = False`) commits whose sha is already in
`processed_shas` are skipped (ingest.py:130-132); every commit whose
details are fetched is added to `processed_shas` (ingest.py:157) — before
any processing, whether or not it will be ignored, cached, published or
failed.  Returns the commits to process and the new processed set. -/
def fetch_github_commits (batch_mode : Bool) (processed : List String) :
    List CommitData → List CommitData × List String
  | [] => ([], processed)
  | c :: rest =>
      if !batch_mode && processed.contains c.sha then
        fetch_github_commits batch_mode processed rest
      else
        let processed1 :=
          if processed.contains c.sha then processed else processed ++ [c.sha]
        let r := fetch_github_commits batch_mode processed1 rest
        (c :: r.1, r.2)

/-- `run_pipeline` (main.py:141-343), generation phase: ingestion (which
already adds every fetched sha to the ledger and saves it once,
ingest.py:157 and ingest.py:165), then the sequential per-commit loop
starting from an empty `aggregated_context` (main.py:247). -/
def run_pipeline (o : Oracle) (notes : String → Option NotionNote)
    (batch_mode : Bool) (processed0 : List String)
    (cache0 : List (String × String)) (commits : List CommitData) :
    PipeState × List TraceEntry :=
  let fetched := fetch_github_commits batch_mode processed0 commits
  runLoopT o notes
    { ledger := fetched.2
    , ledgerSaves := 1
    , cache := cache0
    , linkedinFiles := []
    , context := ""
    , genCalls := 0
    , publishCalls := 0
    , postsPublished := false }
    fetched.1

/-- An oracle whose generation calls all succeed and whose publishes
succeed. -/
def okOracle : Oracle :=
  { genFileSummary := fun _ => "S"
  , genBlog := fun _ _ _ => "BLOG"
  , genTitle := fun _ _ => "TITLE"
  , genLinkedin := fun _ _ => "LI"
  , publish := fun _ _ => some "1" }

/-- Like `okOracle` but every publish fails. -/
def failPublishOracle : Oracle :=
  { okOracle with publish := fun _ _ => none }

def noNotes : String → Option NotionNote := fun _ => none

/-- C3 (code evaluated at the failing input): an incremental run over one
commit whose generation and publish succeed.  The cache is written and the
context appended, but the only ledger disk write of the whole run is the
one made during ingestion (`ledgerSaves = 1`, before any event was
processed), and the loop leaves the ledger exactly as ingestion left it:
`mark_as_processed` does not exist on `Ingester`, so the success-time
ledger update raises `AttributeError` and is swallowed — also skipping the
LinkedIn-summary write (`linkedinFiles = []`).  A publish *failure* yields
the same ledger, showing the ledger entry is not tied to publish success
at all. -/
theorem publish_success_ledger_written_at_fetch :
    (run_pipeline okOracle noNotes false [] []
        [⟨"abcdefgh", "feat: add feature", []⟩]).1
      = { ledger := ["abcdefgh"], ledgerSaves := 1
        , cache := [("abcdefg", "BLOG")], linkedinFiles := []
        , context := contextEntry "abcdefg" "BLOG"
        , genCalls := 3, publishCalls := 1, postsPublished := true }
  ∧ (run_pipeline failPublishOracle noNotes false [] []
        [⟨"abcdefgh", "feat: add feature", []⟩]).1.ledger
      = ["abcdefgh"] := by
  exact ⟨by decide, by decide⟩

/-- C4 (code evaluated at the failing input): an incremental run over one
commit whose message subject contains the ignore marker.  The loop makes
no generation call, no publish and no state mutation — but the commit's
sha *is* in the ProcessedLedger after the run, added and persisted during
ingestion (ingest.py:157,165), contradicting the claim that it is absent. -/
theorem ignored_commit_in_ledger :
    (run_pipeline okOracle noNotes false [] []
        [⟨"c0ffee42", "wip: tmp ignore stuff", []⟩]).1
      = { ledger := ["c0ffee42"], ledgerSaves := 1, cache := []
        , linkedinFiles := [], context := "", genCalls := 0
        , publishCalls := 0, postsPublished := false }
  ∧ ((run_pipeline okOracle noNotes false [] []
        [⟨"c0ffee42", "wip: tmp ignore stuff", []⟩]).1.ledger.contains
          "c0ffee42") = true := by
  exact ⟨by decide, by decide⟩

/-- C5 (code evaluated at the failing input): an incremental run over one
commit whose publish fails.  The cache and context stay untouched for the
event, but the ledger already holds the sha (added during ingestion), and
a second incremental run over the same input, starting from the first
run's ledger, processes nothing (`genCalls = 0`, `publishCalls = 0`):
the failed event is never reattempted, contradicting the claim. -/
theorem publish_failure_not_reattempted :
    (run_pipeline failPublishOracle noNotes false [] []
        [⟨"deadbeef", "fix: bug", []⟩]).1
      = { ledger := ["deadbeef"], ledgerSaves := 1, cache := []
        , linkedinFiles := [], context := "", genCalls := 3
        , publishCalls := 1, postsPublished := false }
  ∧ (run_pipeline failPublishOracle noNotes false
        (run_pipeline failPublishOracle noNotes false [] []
          [⟨"deadbeef", "fix: bug", []⟩]).1.ledger
        [] [⟨"deadbeef", "fix: bug", []⟩]).1.genCalls = 0
  ∧ (run_pipeline failPublishOracle noNotes false
        (run_pipeline failPublishOracle noNotes false [] []
          [⟨"deadbeef", "fix: bug", []⟩]).1.ledger
        [] [⟨"deadbeef", "fix: bug", []⟩]).1.publishCalls = 0 := by
  exact ⟨by decide, by decide, by decide⟩

/-- C6 (amended): a per-event loop iteration over a commit with a
non-empty message that does not match the ignore marker and whose cached
primary-content file exists only loads the cached content and appends it
to the aggregated context: no generation call, no rate-limiter
consumption, no publish, no ledger or cache write — the state is otherwise
unchanged.  (The unamended claim also covers ignore-marked commits, where
the ignore check at main.py:256 wins over the cache check at main.py:261;
see the counterexample.) -/
theorem cache_hit_frame (o : Oracle) (notes : String → Option NotionNote)
    (st : PipeState) (e : CommitData) (content : String)
    (hmsg : e.message ≠ "")
    (hign : hasIgnoreMarker e.message = false)
    (hcache : st.cache.lookup (shortSha e.sha) = some content) :
    processCommitT o notes st e
      = ({ st with context := st.context ++ contextEntry (shortSha e.sha) content },
          ⟨EventStatus.cacheHit, shortSha e.sha, content⟩) := by
  simp [processCommitT, hign, hcache]

/-- A state with a warm cache entry for short sha "abcdefg". -/
def warmState : PipeState :=
  { ledger := [], ledgerSaves := 1, cache := [("abcdefg", "CACHED")]
  , linkedinFiles := [], context := "", genCalls := 0, publishCalls := 0
  , postsPublished := false }

/-- The claim as frozen is false for an event that both matches the ignore
marker and has a cache file: the ignore check runs first, so the cached
content is *not* appended to the aggregated context. -/
theorem cache_hit_ignored_counterexample :
    warmState.cache.lookup (shortSha "abcdefgh") = some "CACHED"
  ∧ (processCommitT okOracle noNotes warmState
        ⟨"abcdefgh", "chore: ignore this", []⟩).1 = warmState
  ∧ warmState.context ++ contextEntry (shortSha "abcdefgh") "CACHED"
      ≠ warmState.context := by
  exact ⟨by decide, by decide, by decide⟩

/-- Witness for `cache_hit_frame`: a non-ignored commit with a warm cache
entry. -/
theorem cache_hit_frame_witness :
    processCommitT okOracle noNotes warmState ⟨"abcdefgh", "feat: thing", []⟩
      = ({ warmState with
            context := warmState.context
              ++ contextEntry (shortSha "abcdefgh") "CACHED" },
          ⟨EventStatus.cacheHit, shortSha "abcdefgh", "CACHED"⟩) :=
  cache_hit_frame okOracle noNotes warmState ⟨"abcdefgh", "feat: thing", []⟩
    "CACHED" (by decide) (by decide) (by decide)

/-- Concatenation of a list of strings, in order. -/
def concatAll : List String → String
  | [] => ""
  | s :: rest => s ++ concatAll rest

/-- The contribution of one trace entry to the aggregated context: events
that reached `published` or `cacheHit` contribute their context entry,
all others contribute nothing. -/
def traceContextEntry (t : TraceEntry) : Option String :=
  match t.status with
  | EventStatus.published => some (contextEntry t.short t.content)
  | EventStatus.cacheHit => some (contextEntry t.short t.content)
  | _ => none

lemma processCommitT_context (o : Oracle) (notes : String → Option NotionNote)
    (st : PipeState) (e : CommitData) :
    (processCommitT o notes st e).1.context
      = st.context
        ++ ((traceContextEntry (processCommitT o notes st e).2).getD "") := by
  simp only [processCommitT]
  repeat' split
  all_goals simp [traceContextEntry]

lemma runLoopT_context (o : Oracle) (notes : String → Option NotionNote) :
    ∀ (evts : List CommitData) (st : PipeState),
    (runLoopT o notes st evts).1.context
      = st.context
        ++ concatAll ((runLoopT o notes st evts).2.filterMap traceContextEntry)
  | [], st => by simp [runLoopT, concatAll]
  | e :: rest, st => by
    have h1 := processCommitT_context o notes st e
    have h2 := runLoopT_context o notes rest (processCommitT o notes st e).1
    simp only [runLoopT]
    cases hE : traceContextEntry (processCommitT o notes st e).2 with
    | none =>
        rw [hE] at h1
        simp only [Option.getD_none, String.append_empty] at h1
        simp [List.filterMap_cons, hE, h2, h1]
    | some s =>
        rw [hE] at h1
        simp only [Option.getD_some] at h1
        simp [List.filterMap_cons, hE, h2, h1, concatAll, String.append_assoc]

/-- C7: after a run of the pipeline over any commit list, the aggregated
context equals the concatenation, in input order, of exactly the context
entries (the code's fixed per-commit header plus the primary content) of
the events that reached `published` or `cacheHit`; no other event
contributes, and the context starts empty each run (main.py:247).
Messages are assumed non-empty, since Python's `splitlines()[0]` would
abort the run on an empty one. -/
theorem aggregated_context_concatenation (o : Oracle)
    (notes : String → Option NotionNote) (batch_mode : Bool)
    (processed0 : List String) (cache0 : List (String × String))
    (commits : List CommitData)
    (hmsg : ∀ c ∈ commits, c.message ≠ "") :
    (run_pipeline o notes batch_mode processed0 cache0 commits).1.context
      = concatAll
          ((run_pipeline o notes batch_mode processed0 cache0
              commits).2.filterMap traceContextEntry) := by
  unfold run_pipeline
  rw [runLoopT_context]
  rfl

/-- Witness for `aggregated_context_concatenation`: one successfully
published commit; the context is exactly that commit's entry. -/
theorem aggregated_context_concatenation_witness :
    (run_pipeline okOracle noNotes false [] []
        [⟨"abc1234x", "feat: one", []⟩]).1.context
      = concatAll
          ((run_pipeline okOracle noNotes false [] []
              [⟨"abc1234x", "feat: one", []⟩]).2.filterMap traceContextEntry)
  ∧ (run_pipeline okOracle noNotes false [] []
        [⟨"abc1234x", "feat: one", []⟩]).1.context
      = contextEntry "abc1234" "BLOG" := by
  refine ⟨aggregated_context_concatenation okOracle noNotes false [] []
    [⟨"abc1234x", "feat: one", []⟩] ?_, by decide⟩
  intro c hc
  simp only [List.mem_singleton] at hc
  subst hc
  decide

end CommitBlogger
